import Mathlib

/-!
Verification of the scanning/filtering engine of the `clannad` repository
(`src/filter.rs`): the three symlink-resolution policies `BasicFilter`,
`SymlinkFilter` and `SymlinkFollowFilter`, their breadth-first traversal,
per-entry classification, and error behaviour, over an in-memory model of
the filesystem calls they perform (`is_symlink`, `try_exists`, `is_dir`,
`is_file`, `read_link`, `read_dir`).

Modelling conventions:
* a path is its list of components from the root (`FsPath`); the model
  restricts itself to UTF-8 absolute paths, and symlink targets are stored
  as absolute paths (so `Path::join(parent, target)` returns the target);
* the filesystem is a finite association list from paths to nodes; a
  directory node carries a `readable` flag (false models a directory whose
  `read_dir` call fails) and its entries, where an entry `none` models a
  `DirEntry` result that is an `Err`;
* `lf` is the fuel bounding symlink-chain resolution inside one filesystem
  query (the OS's ELOOP bound); the breadth-first loops and the
  `follow_link` while-loop of the source are given their own fuel, and a
  scan result of `none` means the fuel ran out, i.e. the source loop has
  not finished within that budget;
* a Rust `panic!`/`unwrap` failure is the explicit result `Panics.panicked`.
-/

namespace Clannad

/-- A filesystem path, as its list of components from the root. -/
abbrev FsPath := List String

/-- One filesystem node as the scanner can observe it: a regular file, a
directory (readable flag and entry names, `none` marking an entry whose
`DirEntry` read fails), or a symbolic link with its one-hop target. -/
inductive Node where
  | file : Node
  | dir (readable : Bool) (entries : List (Option String)) : Node
  | symlink (target : FsPath) : Node
deriving DecidableEq, Repr

/-- An in-memory filesystem: a finite map from paths to nodes. -/
abbrev FS := List (FsPath × Node)

/-- Raw (lstat-like, no resolution at all) lookup of a path in the map. -/
def rawLookup (fs : FS) (p : FsPath) : Option Node :=
  match fs with
  | [] => none
  | (q, n) :: rest => if q = p then some n else rawLookup rest p

/-- One level of path resolution: walk the components (given in reverse
order), resolving each already-walked prefix, and expand a symlink met at
a component through `recur` (the resolver with one unit of fuel less). -/
def realpathGo (fs : FS) (recur : List String → Option FsPath) :
    List String → Option FsPath
  | [] => some []
  | c :: rest =>
    match realpathGo fs recur rest with
    | none => none
    | some d =>
      match rawLookup fs (d ++ [c]) with
      | some (Node.symlink t) => recur t.reverse
      | _ => some (d ++ [c])

/-- Resolve a path given in reverse component order, expanding every
symlink met along the way (kernel-style full resolution).  `fuel` bounds
the nesting depth of symlink expansions; `none` models the ELOOP
failure. -/
def realpathRev (fs : FS) : Nat → List String → Option FsPath
  | 0, l => realpathGo fs (fun _ => none) l
  | fuel + 1, l => realpathGo fs (realpathRev fs fuel) l

/-- Full resolution of a path, following symlinks in every component. -/
def realpath (fs : FS) (lf : Nat) (p : FsPath) : Option FsPath :=
  realpathRev fs lf p.reverse

/-- The node a no-follow stat (`lstat`) sees at `p`: symlinks in the
parent components are resolved, the final component is not. -/
def lstatNode (fs : FS) (lf : Nat) (p : FsPath) : Option Node :=
  match p.reverse with
  | [] => rawLookup fs []
  | c :: restRev =>
    match realpathRev fs lf restRev with
    | none => none
    | some d => rawLookup fs (d ++ [c])

/-- The node a following stat sees at `p` (after full resolution). -/
def statNode (fs : FS) (lf : Nat) (p : FsPath) : Option Node :=
  (realpath fs lf p).bind (rawLookup fs)

/-- `Path::is_symlink` (does not follow the final component). -/
def is_symlink (fs : FS) (lf : Nat) (p : FsPath) : Bool :=
  match lstatNode fs lf p with
  | some (Node.symlink _) => true
  | _ => false

/-- `fs::read_link`: the one-hop target of a symlink. -/
def read_link (fs : FS) (lf : Nat) (p : FsPath) : Option FsPath :=
  match lstatNode fs lf p with
  | some (Node.symlink t) => some t
  | _ => none

/-- `Path::try_exists().is_ok_and(|x| x)`: following existence check;
an ELOOP error is an `Err`, hence `false` here as in the source. -/
def try_exists (fs : FS) (lf : Nat) (p : FsPath) : Bool :=
  (statNode fs lf p).isSome

/-- `Path::is_dir` (follows symlinks). -/
def is_dir (fs : FS) (lf : Nat) (p : FsPath) : Bool :=
  match statNode fs lf p with
  | some (Node.dir _ _) => true
  | _ => false

/-- `Path::is_file` (follows symlinks). -/
def is_file (fs : FS) (lf : Nat) (p : FsPath) : Bool :=
  match statNode fs lf p with
  | some Node.file => true
  | _ => false

/-- `Path::read_dir`: lists a directory (following symlinks), each entry's
path being the argument path joined with the entry name, `none` standing
for an `Err` `DirEntry`.  Fails (`none`) when the resolved node is not a
readable directory. -/
def read_dir (fs : FS) (lf : Nat) (p : FsPath) : Option (List (Option FsPath)) :=
  match statNode fs lf p with
  | some (Node.dir true entries) =>
    some (entries.map (Option.map (fun nm => p ++ [nm])))
  | _ => none

/-- `FileType` of `src/filter.rs`: `NONE` is the kind of a symlink whose
target does not exist (spec name: Broken). -/
inductive FileType where
  | REGULAR : FileType
  | DIRECTORY : FileType
  | SYMLINK : FileType
  | NONE : FileType
deriving DecidableEq, Repr

/-- `FileInfo` of `src/filter.rs`: one manifest entry. -/
structure FileInfo where
  /-- filesystem path (the spec's logical path) -/
  path : FsPath
  /-- actual file path (the spec's content source) -/
  content_path : FsPath
  /-- file path the symlink points to (the spec's link target) -/
  symlink_path : Option FsPath
  /-- file type -/
  file_type : FileType
deriving DecidableEq, Repr

/-- `FileInfo::new`, with the argument order of the source. -/
def FileInfo.new (path : FsPath) (content_path : FsPath)
    (file_type : FileType) (symlink_path : Option FsPath) : FileInfo :=
  { path := path, content_path := content_path,
    symlink_path := symlink_path, file_type := file_type }

/-- The outcome of a piece of Rust code that can `panic!`. -/
inductive Panics (α : Type) where
  | panicked : Panics α
  | ok : α → Panics α
deriving DecidableEq, Repr

/-- The result a scan loop can produce within its fuel: `Panics.panicked`
for an `unwrap`/`expect` failure, otherwise the returned
`Option<Vec<FileInfo>>`. -/
abbrev ScanResult := Panics (Option (List FileInfo))

/-- The body of `BasicFilter::list_files`'s while loop over the work
queue.  `fuel` bounds the number of iterations; `none` means the loop has
not terminated within `fuel` steps. -/
def basicLoop (fs : FS) (lf : Nat) : Nat → List FsPath → List FileInfo → Option ScanResult
  | _, [], results => some (Panics.ok (some results))
  | 0, _ :: _, _ => none
  | fuel + 1, root :: queue, results =>
    let fi := FileInfo.new root root
      (if is_dir fs lf root then FileType.DIRECTORY else FileType.REGULAR) none
    if is_file fs lf root then
      basicLoop fs lf fuel queue (results ++ [fi])
    else
      match read_dir fs lf root with
      | none => some Panics.panicked
      | some entries =>
        if entries.any Option.isNone then some Panics.panicked
        else basicLoop fs lf fuel (queue ++ entries.filterMap id) (results ++ [fi])

/-- `BasicFilter` of `src/filter.rs`. -/
structure BasicFilter where
  root : FsPath
  files : Option (List FileInfo)
deriving DecidableEq, Repr

/-- `BasicFilter::list_files`. -/
def BasicFilter.list_files (fs : FS) (lf : Nat) (fuel : Nat) (self : BasicFilter) :
    Option ScanResult :=
  let root := self.root
  if is_symlink fs lf root then
    some (Panics.ok (some [FileInfo.new root root FileType.REGULAR none]))
  else if ¬ try_exists fs lf root then
    some (Panics.ok none)
  else
    basicLoop fs lf fuel [root] []

/-- `<BasicFilter as Filter>::new`. -/
def BasicFilter.new (root : FsPath) : BasicFilter :=
  { root := root, files := none }

/-- `<BasicFilter as Filter>::scan` (stores `list_files`'s result). -/
def BasicFilter.scan (fs : FS) (lf : Nat) (fuel : Nat) (self : BasicFilter) :
    Option (Panics BasicFilter) :=
  match BasicFilter.list_files fs lf fuel self with
  | none => none
  | some Panics.panicked => some Panics.panicked
  | some (Panics.ok r) => some (Panics.ok { self with files := r })

/-- `<BasicFilter as Filter>::update`. -/
def BasicFilter.update (self : BasicFilter) (root : FsPath) : BasicFilter :=
  { self with root := root, files := none }

/-- `<BasicFilter as IntoIterator>::into_iter`
(`self.files.unwrap_or(Vec::new()).into_iter()`). -/
def BasicFilter.into_iter (self : BasicFilter) : List FileInfo :=
  self.files.getD []

/-- `SymlinkFilter::query_fileinfo`.  The source's `Err(_) => unreachable!()`
branch of the `read_link` match cannot fire (a symlink always has a
readable target value in the model); it is mapped to a dummy entry and
proved unreachable where needed. -/
def SymlinkFilter.query_fileinfo (fs : FS) (lf : Nat) (path : FsPath) : FileInfo :=
  if is_symlink fs lf path then
    match read_link fs lf path with
    | some points_to =>
      FileInfo.new path path
        (if ¬ try_exists fs lf points_to then FileType.NONE
         else if is_symlink fs lf points_to then FileType.SYMLINK
         else if is_dir fs lf points_to then FileType.DIRECTORY
         else FileType.REGULAR)
        (some points_to)
    | none => FileInfo.new path path FileType.NONE none
  else
    FileInfo.new path path
      (if is_dir fs lf path then FileType.DIRECTORY else FileType.REGULAR) none

/-- `SymlinkFilter::query_next_batch`: `None` for a leaf; a `read_dir`
failure is the `expect("invalid path")` panic; `Err` entries are dropped
by the source's `filter(|e| e.is_ok())`. -/
def SymlinkFilter.query_next_batch (fs : FS) (lf : Nat) (path : FsPath) :
    Panics (Option (List FsPath)) :=
  if is_symlink fs lf path then Panics.ok none
  else if is_file fs lf path then Panics.ok none
  else
    match read_dir fs lf path with
    | none => Panics.panicked
    | some entries => Panics.ok (some (entries.filterMap id))

/-- The body of `SymlinkFilter::list_files`'s while loop. -/
def symLoop (fs : FS) (lf : Nat) : Nat → List FsPath → List FileInfo → Option ScanResult
  | _, [], results => some (Panics.ok (some results))
  | 0, _ :: _, _ => none
  | fuel + 1, next :: queue, results =>
    let results := results ++ [SymlinkFilter.query_fileinfo fs lf next]
    match SymlinkFilter.query_next_batch fs lf next with
    | Panics.panicked => some Panics.panicked
    | Panics.ok none => symLoop fs lf fuel queue results
    | Panics.ok (some batch) => symLoop fs lf fuel (queue ++ batch) results

/-- `SymlinkFilter` of `src/filter.rs`. -/
structure SymlinkFilter where
  root : FsPath
  files : Option (List FileInfo)
deriving DecidableEq, Repr

/-- `SymlinkFilter::list_files`. -/
def SymlinkFilter.list_files (fs : FS) (lf : Nat) (fuel : Nat) (self : SymlinkFilter) :
    Option ScanResult :=
  let root := self.root
  if is_symlink fs lf root then
    some (Panics.ok (some [SymlinkFilter.query_fileinfo fs lf root]))
  else if ¬ try_exists fs lf root then
    some (Panics.ok none)
  else
    symLoop fs lf fuel [root] []

/-- `<SymlinkFilter as Filter>::new`. -/
def SymlinkFilter.new (root : FsPath) : SymlinkFilter :=
  { root := root, files := none }

/-- `<SymlinkFilter as Filter>::scan`. -/
def SymlinkFilter.scan (fs : FS) (lf : Nat) (fuel : Nat) (self : SymlinkFilter) :
    Option (Panics SymlinkFilter) :=
  match SymlinkFilter.list_files fs lf fuel self with
  | none => none
  | some Panics.panicked => some Panics.panicked
  | some (Panics.ok r) => some (Panics.ok { self with files := r })

/-- `<SymlinkFilter as Filter>::update`. -/
def SymlinkFilter.update (self : SymlinkFilter) (root : FsPath) : SymlinkFilter :=
  { self with root := root, files := none }

/-- `<SymlinkFilter as IntoIterator>::into_iter`. -/
def SymlinkFilter.into_iter (self : SymlinkFilter) : List FileInfo :=
  self.files.getD []

/-- The `while Path::new(&destination_path).is_symlink()` loop of
`SymlinkFollowFilter::follow_link`: repeated one-hop `read_link` until a
non-symlink path is reached.  `none` means the chain did not finish
within `fuel` hops (on a cyclic chain the source loops forever). -/
def followChain (fs : FS) (lf : Nat) : Nat → FsPath → Option FsPath
  | 0, p => if is_symlink fs lf p then none else some p
  | fuel + 1, p =>
    if is_symlink fs lf p then
      match read_link fs lf p with
      | some t => followChain fs lf fuel t
      | none => none
    else some p

/-- `SymlinkFollowFilter::follow_link`.  In the model symlink targets are
absolute, so `parent().unwrap().join(destination)` is the destination
itself; `parent().unwrap()` still panics on a rootless path. -/
def SymlinkFollowFilter.follow_link (fs : FS) (lf : Nat) (fuel : Nat)
    (symlink : FsPath) : Option (Panics FileInfo) :=
  match read_link fs lf symlink with
  | none => some Panics.panicked
  | some target =>
    match followChain fs lf fuel target with
    | none => none
    | some destination =>
      match symlink with
      | [] => some Panics.panicked
      | _ :: _ =>
        some (Panics.ok (FileInfo.new symlink destination
          (if is_dir fs lf destination then FileType.DIRECTORY else FileType.REGULAR)
          none))

/-- `SymlinkFollowFilter::query_fileinfo`. -/
def SymlinkFollowFilter.query_fileinfo (fs : FS) (lf : Nat) (fuel : Nat)
    (path : FsPath) : Option (Panics FileInfo) :=
  if is_symlink fs lf path then
    SymlinkFollowFilter.follow_link fs lf fuel path
  else
    some (Panics.ok (FileInfo.new path path
      (if is_dir fs lf path then FileType.DIRECTORY else FileType.REGULAR) none))

/-- `SymlinkFollowFilter::query_next_batch`: children are read from the
entry's `content_path` (the resolved target), `read_dir().unwrap()` and
the per-entry `x.unwrap()` both panic on failure. -/
def SymlinkFollowFilter.query_next_batch (fs : FS) (lf : Nat) (fuel : Nat)
    (path : FsPath) : Option (Panics (List FsPath)) :=
  match SymlinkFollowFilter.query_fileinfo fs lf fuel path with
  | none => none
  | some Panics.panicked => some Panics.panicked
  | some (Panics.ok info) =>
    if is_file fs lf info.content_path then some (Panics.ok [])
    else
      match read_dir fs lf info.content_path with
      | none => some Panics.panicked
      | some entries =>
        if entries.any Option.isNone then some Panics.panicked
        else some (Panics.ok (entries.filterMap id))

/-- The body of `SymlinkFollowFilter::list_files`'s while loop. -/
def followLoop (fs : FS) (lf : Nat) : Nat → List FsPath → List FileInfo → Option ScanResult
  | _, [], results => some (Panics.ok (some results))
  | 0, _ :: _, _ => none
  | fuel + 1, root :: queue, results =>
    match SymlinkFollowFilter.query_fileinfo fs lf (fuel + 1) root with
    | none => none
    | some Panics.panicked => some Panics.panicked
    | some (Panics.ok fi) =>
      match SymlinkFollowFilter.query_next_batch fs lf (fuel + 1) root with
      | none => none
      | some Panics.panicked => some Panics.panicked
      | some (Panics.ok batch) =>
        followLoop fs lf fuel (queue ++ batch) (results ++ [fi])

/-- `SymlinkFollowFilter` of `src/filter.rs`. -/
structure SymlinkFollowFilter where
  root : FsPath
  files : Option (List FileInfo)
deriving DecidableEq, Repr

/-- `SymlinkFollowFilter::list_files`. -/
def SymlinkFollowFilter.list_files (fs : FS) (lf : Nat) (fuel : Nat)
    (self : SymlinkFollowFilter) : Option ScanResult :=
  let root := self.root
  if ¬ try_exists fs lf root then
    some (Panics.ok none)
  else
    followLoop fs lf fuel [root] []

/-- `<SymlinkFollowFilter as Filter>::new`. -/
def SymlinkFollowFilter.new (root : FsPath) : SymlinkFollowFilter :=
  { root := root, files := none }

/-- `<SymlinkFollowFilter as Filter>::scan`. -/
def SymlinkFollowFilter.scan (fs : FS) (lf : Nat) (fuel : Nat)
    (self : SymlinkFollowFilter) : Option (Panics SymlinkFollowFilter) :=
  match SymlinkFollowFilter.list_files fs lf fuel self with
  | none => none
  | some Panics.panicked => some Panics.panicked
  | some (Panics.ok r) => some (Panics.ok { self with files := r })

/-- `<SymlinkFollowFilter as Filter>::update`. -/
def SymlinkFollowFilter.update (self : SymlinkFollowFilter) (root : FsPath) :
    SymlinkFollowFilter :=
  { self with root := root, files := none }

/-- `<SymlinkFollowFilter as IntoIterator>::into_iter`. -/
def SymlinkFollowFilter.into_iter (self : SymlinkFollowFilter) : List FileInfo :=
  self.files.getD []

/-- Extract the produced manifest of a scan outcome, the empty list when
the scan failed, panicked or returned no manifest. -/
def scanList (r : Option ScanResult) : List FileInfo :=
  match r with
  | some (Panics.ok (some l)) => l
  | _ => []

/-- Whether a follow-policy scan completes (returns or panics) within some
fuel. -/
def FollowTerminates (fs : FS) (lf : Nat) (self : SymlinkFollowFilter) : Prop :=
  ∃ fuel, (SymlinkFollowFilter.list_files fs lf fuel self).isSome

/-- Example tree: a root directory with a regular file `a`, a subdirectory
`s` containing a file `b`, and a symlink `l` pointing to `s`. -/
def fsTree : FS :=
  [ (["r"], Node.dir true [some "a", some "s", some "l"]),
    (["r", "a"], Node.file),
    (["r", "s"], Node.dir true [some "b"]),
    (["r", "s", "b"], Node.file),
    (["r", "l"], Node.symlink ["r", "s"]) ]

/-- Example tree: two chained symlinks `a -> b -> c` with `c` missing. -/
def fsChain : FS :=
  [ (["r"], Node.dir true [some "a", some "b"]),
    (["r", "a"], Node.symlink ["r", "b"]),
    (["r", "b"], Node.symlink ["r", "c"]) ]

/-- Example tree: a subdirectory `d` one of whose directory entries fails
to read (an `Err` `DirEntry`). -/
def fsBadEntry : FS :=
  [ (["r"], Node.dir true [some "d"]),
    (["r", "d"], Node.dir true [some "x", none]),
    (["r", "d", "x"], Node.file) ]

/-- Example tree: a subdirectory `d` whose listing fails wholesale. -/
def fsUnreadable : FS :=
  [ (["r"], Node.dir true [some "d"]),
    (["r", "d"], Node.dir false []) ]

/-- Example tree: a symlink `c` pointing at itself. -/
def fsCycleF : FS :=
  [ (["r"], Node.dir true [some "c"]),
    (["r", "c"], Node.symlink ["r", "c"]) ]

/-- Whether a node's readable directory entries are duplicate-free (true
of every real directory listing). -/
def dirEntriesOkB : Node → Bool
  | Node.dir _ es => decide ((es.filterMap id).Nodup)
  | _ => true

/-- A filesystem whose directory listings are duplicate-free. -/
abbrev entriesNodup (fs : FS) : Prop := ∀ pr ∈ fs, dirEntriesOkB pr.2 = true

/-- Whether a directory node is readable and all its successfully listed
children are present in the map (keyed at the directory's own path). -/
def childrenPresentB (fs : FS) (pr : FsPath × Node) : Bool :=
  match pr.2 with
  | Node.dir b es =>
    b && (es.filterMap id).all (fun nm => (rawLookup fs (pr.1 ++ [nm])).isSome)
  | _ => true

/-- A filesystem with no node at the empty path, every directory readable,
and every listed child present — the shape of a real readable tree, which
may still contain failing (`none`) directory entries. -/
abbrev readableTree (fs : FS) : Prop :=
  rawLookup fs [] = none ∧ ∀ pr ∈ fs, childrenPresentB fs pr = true

/-! ### Lemmas about the filesystem model -/

theorem rawLookup_mem {fs : FS} {p : FsPath} {n : Node} (h : rawLookup fs p = some n) :
    (p, n) ∈ fs := by
  induction fs with
  | nil => simp [rawLookup] at h
  | cons pr rest ih =>
    obtain ⟨q, m⟩ := pr
    unfold rawLookup at h
    by_cases hq : q = p
    · simp [hq] at h
      simp [hq, h]
    · simp [hq] at h
      exact List.mem_cons_of_mem _ (ih h)

/-- `realpathRev` on the empty component list. -/
theorem realpathRev_nil (fs : FS) (fuel : Nat) : realpathRev fs fuel [] = some [] := by
  cases fuel <;> rfl

/-- Unfolding for `realpathRev` on a cons, for an arbitrary fuel. -/
theorem realpathRev_cons (fs : FS) (fuel : Nat) (c : String) (rest : List String) :
    realpathRev fs fuel (c :: rest) =
      match realpathRev fs fuel rest with
      | none => none
      | some d =>
        match rawLookup fs (d ++ [c]) with
        | some (Node.symlink t) =>
          match fuel with
          | 0 => none
          | f + 1 => realpathRev fs f t.reverse
        | _ => some (d ++ [c]) := by
  cases fuel <;> rfl

/-- Root not found, characterized: the no-follow lookup of a path fails
exactly when the path is not a symlink and the following existence check
fails as well. -/
theorem lstat_none_iff (fs : FS) (lf : Nat) (p : FsPath) :
    lstatNode fs lf p = none ↔
      (is_symlink fs lf p = false ∧ try_exists fs lf p = false) := by
  unfold is_symlink try_exists statNode realpath lstatNode
  cases hrev : p.reverse with
  | nil =>
    simp only [realpathRev_nil, Option.some_bind]
    cases h0 : rawLookup fs [] with
    | none => simp
    | some n => cases n <;> simp
  | cons c rest =>
    rw [realpathRev_cons]
    cases hq : realpathRev fs lf rest with
    | none => simp [hq]
    | some d =>
      cases h2 : rawLookup fs (d ++ [c]) with
      | none => simp [hq, h2]
      | some n => cases n <;> simp [hq, h2]

theorem basicLoop_ne_ok_none (fs : FS) (lf : Nat) :
    ∀ fuel queue results, basicLoop fs lf fuel queue results ≠ some (Panics.ok none) := by
  intro fuel
  induction fuel with
  | zero =>
    intro queue results h
    cases queue with
    | nil => simp [basicLoop] at h
    | cons a q => simp [basicLoop] at h
  | succ f ih =>
    intro queue results h
    cases queue with
    | nil => simp [basicLoop] at h
    | cons a q =>
      rw [basicLoop] at h
      by_cases hf : is_file fs lf a
      · simp only [hf, if_true] at h
        exact ih _ _ h
      · simp only [hf, if_false] at h
        cases hd : read_dir fs lf a with
        | none => simp [hd] at h
        | some entries =>
          simp only [hd] at h
          by_cases he : entries.any Option.isNone
          · simp [he] at h
          · simp only [he, if_false] at h
            exact ih _ _ h

theorem symLoop_ne_ok_none (fs : FS) (lf : Nat) :
    ∀ fuel queue results, symLoop fs lf fuel queue results ≠ some (Panics.ok none) := by
  intro fuel
  induction fuel with
  | zero =>
    intro queue results h
    cases queue with
    | nil => simp [symLoop] at h
    | cons a q => simp [symLoop] at h
  | succ f ih =>
    intro queue results h
    cases queue with
    | nil => simp [symLoop] at h
    | cons a q =>
      rw [symLoop] at h
      cases hb : SymlinkFilter.query_next_batch fs lf a with
      | panicked => simp [hb] at h
      | ok ob =>
        cases ob with
        | none =>
          simp only [hb] at h
          exact ih _ _ h
        | some batch =>
          simp only [hb] at h
          exact ih _ _ h

theorem followLoop_ne_ok_none (fs : FS) (lf : Nat) :
    ∀ fuel queue results, followLoop fs lf fuel queue results ≠ some (Panics.ok none) := by
  intro fuel
  induction fuel with
  | zero =>
    intro queue results h
    cases queue with
    | nil => simp [followLoop] at h
    | cons a q => simp [followLoop] at h
  | succ f ih =>
    intro queue results h
    cases queue with
    | nil => simp [followLoop] at h
    | cons a q =>
      rw [followLoop] at h
      cases hq : SymlinkFollowFilter.query_fileinfo fs lf (f + 1) a with
      | none => simp [hq] at h
      | some pfi =>
        cases pfi with
        | panicked => simp [hq] at h
        | ok fi =>
          simp only [hq] at h
          cases hb : SymlinkFollowFilter.query_next_batch fs lf (f + 1) a with
          | none => simp [hb] at h
          | some pb =>
            cases pb with
            | panicked => simp [hb] at h
            | ok batch =>
              simp only [hb] at h
              exact ih _ _ h

/-! ### Claim theorems: root handling and manifest lifecycle -/

/-- C6: for every policy, the scan result is the absent manifest (`files()`
is `None`) exactly when the root fails that policy's existence check — the
no-follow lookup for `BasicFilter` and `SymlinkFilter`, the following stat
for `SymlinkFollowFilter` — and no other completed scan outcome is the
absent manifest. -/
theorem C6_root_not_found (fs : FS) (lf fuel : Nat) (root : FsPath)
    (b : Option (List FileInfo)) :
    (BasicFilter.list_files fs lf fuel ⟨root, b⟩ = some (Panics.ok none) ↔
      lstatNode fs lf root = none) ∧
    (SymlinkFilter.list_files fs lf fuel ⟨root, b⟩ = some (Panics.ok none) ↔
      lstatNode fs lf root = none) ∧
    (SymlinkFollowFilter.list_files fs lf fuel ⟨root, b⟩ = some (Panics.ok none) ↔
      statNode fs lf root = none) := by
  refine ⟨?_, ?_, ?_⟩
  · unfold BasicFilter.list_files
    by_cases hs : is_symlink fs lf root = true
    · simp [hs, lstat_none_iff]
    · by_cases ht : try_exists fs lf root = true
      · simp only [Bool.not_eq_true] at hs
        simp [hs, ht, lstat_none_iff]
        exact basicLoop_ne_ok_none fs lf fuel [root] []
      · simp only [Bool.not_eq_true] at hs ht
        simp [hs, ht, lstat_none_iff]
  · unfold SymlinkFilter.list_files
    by_cases hs : is_symlink fs lf root = true
    · simp [hs, lstat_none_iff]
    · by_cases ht : try_exists fs lf root = true
      · simp only [Bool.not_eq_true] at hs
        simp [hs, ht, lstat_none_iff]
        exact symLoop_ne_ok_none fs lf fuel [root] []
      · simp only [Bool.not_eq_true] at hs ht
        simp [hs, ht, lstat_none_iff]
  · unfold SymlinkFollowFilter.list_files
    cases hn : statNode fs lf root with
    | some n =>
      have ht : try_exists fs lf root = true := by simp [try_exists, hn]
      simp [ht, hn]
      exact followLoop_ne_ok_none fs lf fuel [root] []
    | none =>
      have ht : try_exists fs lf root = false := by simp [try_exists, hn]
      simp [ht, hn]

/-- C8: under the Basic policy, a root that is itself a symlink — whatever
it points to — short-circuits the scan to a single `REGULAR` entry whose
logical and content path are both the root, with no traversal. -/
theorem C8_basic_symlink_root (fs : FS) (lf fuel : Nat) (root : FsPath)
    (b : Option (List FileInfo)) (h : is_symlink fs lf root = true) :
    BasicFilter.list_files fs lf fuel ⟨root, b⟩ =
      some (Panics.ok (some [FileInfo.new root root FileType.REGULAR none])) := by
  unfold BasicFilter.list_files
  simp [h]

/-- Witness for C8 at a concrete input: the root `r/l` of `fsTree` is a
symlink (to a directory), and the Basic scan yields the single `REGULAR`
root entry. -/
theorem C8_basic_symlink_root_witness :
    is_symlink fsTree 40 ["r", "l"] = true ∧
    BasicFilter.list_files fsTree 40 20 ⟨["r", "l"], none⟩ =
      some (Panics.ok (some [FileInfo.new ["r", "l"] ["r", "l"] FileType.REGULAR none])) :=
  ⟨by decide, C8_basic_symlink_root fsTree 40 20 ["r", "l"] none (by decide)⟩

/-- C10: consuming any filter through `into_iter` with an absent manifest
(fresh from `new`, reset by `update`, or a scan that found no root) yields
the empty sequence. -/
theorem C10_into_iter_absent (b : BasicFilter) (s : SymlinkFilter)
    (f : SymlinkFollowFilter) (r : FsPath) :
    (BasicFilter.new r).files = none ∧ (SymlinkFilter.new r).files = none ∧
    (SymlinkFollowFilter.new r).files = none ∧
    (b.update r).files = none ∧ (s.update r).files = none ∧ (f.update r).files = none ∧
    (b.files = none → b.into_iter = []) ∧
    (s.files = none → s.into_iter = []) ∧
    (f.files = none → f.into_iter = []) := by
  refine ⟨rfl, rfl, rfl, rfl, rfl, rfl, ?_, ?_, ?_⟩ <;> intro h <;>
    simp [BasicFilter.into_iter, SymlinkFilter.into_iter,
      SymlinkFollowFilter.into_iter, h]

/-- Witness for C10 at concrete filters with an absent manifest. -/
theorem C10_into_iter_absent_witness :
    (BasicFilter.mk ["r"] none).into_iter = [] ∧
    (SymlinkFilter.mk ["r"] none).into_iter = [] ∧
    (SymlinkFollowFilter.mk ["r"] none).into_iter = [] :=
  ⟨(C10_into_iter_absent (BasicFilter.mk ["r"] none) (SymlinkFilter.mk ["r"] none)
      (SymlinkFollowFilter.mk ["r"] none) ["r"]).2.2.2.2.2.2.1 rfl,
   (C10_into_iter_absent (BasicFilter.mk ["r"] none) (SymlinkFilter.mk ["r"] none)
      (SymlinkFollowFilter.mk ["r"] none) ["r"]).2.2.2.2.2.2.2.1 rfl,
   (C10_into_iter_absent (BasicFilter.mk ["r"] none) (SymlinkFilter.mk ["r"] none)
      (SymlinkFollowFilter.mk ["r"] none) ["r"]).2.2.2.2.2.2.2.2 rfl⟩

/-! ### Helper lemmas about queries and entry shapes -/

theorem filterMap_id_map_option {α β : Type} (f : α → β) (l : List (Option α)) :
    (l.map (Option.map f)).filterMap id = (l.filterMap id).map f := by
  induction l with
  | nil => rfl
  | cons o rest ih => cases o <;> simp [ih]

theorem statNode_some {fs : FS} {lf : Nat} {p : FsPath} {n : Node}
    (h : statNode fs lf p = some n) :
    ∃ d, realpath fs lf p = some d ∧ rawLookup fs d = some n := by
  unfold statNode at h
  cases hr : realpath fs lf p with
  | none => rw [hr] at h; simp at h
  | some d => rw [hr] at h; exact ⟨d, rfl, h⟩

theorem read_dir_entries {fs : FS} {lf : Nat} {p : FsPath} {entries : List (Option FsPath)}
    (h : read_dir fs lf p = some entries) :
    ∃ es, statNode fs lf p = some (Node.dir true es) ∧
      entries = es.map (Option.map fun nm => p ++ [nm]) := by
  unfold read_dir at h
  cases hs : statNode fs lf p with
  | none => rw [hs] at h; simp at h
  | some n =>
    rw [hs] at h
    cases n with
    | file => simp at h
    | symlink t => simp at h
    | dir b es =>
      cases b with
      | false => simp at h
      | true =>
        simp only [Option.some_inj] at h
        exact ⟨es, rfl, h.symm⟩

theorem entriesNodup_lookup {fs : FS} {d : FsPath} {b : Bool} {es : List (Option String)}
    (hnd : entriesNodup fs) (h : rawLookup fs d = some (Node.dir b es)) :
    (es.filterMap id).Nodup := by
  have hx := hnd _ (rawLookup_mem h)
  simpa [dirEntriesOkB] using hx

theorem append_singleton_inj {p : FsPath} {a b' : String}
    (h : p ++ [a] = p ++ [b']) : a = b' := by
  simpa using List.append_cancel_left h

/-- The successfully listed children of a `read_dir`, as paths: each is
the listed path extended by one name, and they are duplicate-free in a
duplicate-free filesystem. -/
theorem read_dir_children {fs : FS} {lf : Nat} {p : FsPath} {entries : List (Option FsPath)}
    (h : read_dir fs lf p = some entries) :
    (∀ x ∈ entries.filterMap id, ∃ nm, x = p ++ [nm]) ∧
    (entriesNodup fs → (entries.filterMap id).Nodup) := by
  obtain ⟨es, hstat, hent⟩ := read_dir_entries h
  subst hent
  rw [filterMap_id_map_option]
  constructor
  · intro x hx
    obtain ⟨nm, _, hnm⟩ := List.mem_map.1 hx
    exact ⟨nm, hnm.symm⟩
  · intro hnd
    obtain ⟨d, _, hraw⟩ := statNode_some hstat
    exact (entriesNodup_lookup hnd hraw).map
      (fun a b' hab => append_singleton_inj hab)

theorem is_symlink_read_link {fs : FS} {lf : Nat} {p : FsPath}
    (h : is_symlink fs lf p = true) : ∃ t, read_link fs lf p = some t := by
  unfold is_symlink at h
  unfold read_link
  cases hl : lstatNode fs lf p with
  | none => rw [hl] at h; simp at h
  | some n =>
    rw [hl] at h
    cases n with
    | file => simp at h
    | dir b es => simp at h
    | symlink t => exact ⟨t, rfl⟩

theorem sym_query_fileinfo_path (fs : FS) (lf : Nat) (p : FsPath) :
    (SymlinkFilter.query_fileinfo fs lf p).path = p := by
  unfold SymlinkFilter.query_fileinfo
  by_cases hs : is_symlink fs lf p = true
  · simp only [hs, if_true]
    cases read_link fs lf p <;> rfl
  · simp only [hs]
    rfl

theorem sym_query_fileinfo_content (fs : FS) (lf : Nat) (p : FsPath) :
    (SymlinkFilter.query_fileinfo fs lf p).content_path = p := by
  unfold SymlinkFilter.query_fileinfo
  by_cases hs : is_symlink fs lf p = true
  · simp only [hs, if_true]
    cases read_link fs lf p <;> rfl
  · simp only [hs]
    rfl

/-- `SymlinkFilter::query_next_batch` returning a batch: the path is a
non-symlink and every batch element extends it by one component. -/
theorem sym_batch_shape {fs : FS} {lf : Nat} {p : FsPath} {batch : List FsPath}
    (h : SymlinkFilter.query_next_batch fs lf p = Panics.ok (some batch)) :
    is_symlink fs lf p = false ∧ ∀ x ∈ batch, ∃ nm, x = p ++ [nm] := by
  unfold SymlinkFilter.query_next_batch at h
  by_cases hs : is_symlink fs lf p = true
  · rw [if_pos hs] at h
    exact absurd h (by simp)
  · have hs' : is_symlink fs lf p = false := by simpa using hs
    refine ⟨hs', ?_⟩
    rw [if_neg hs] at h
    by_cases hf : is_file fs lf p = true
    · rw [if_pos hf] at h
      exact absurd h (by simp)
    · rw [if_neg hf] at h
      cases hd : read_dir fs lf p with
      | none => rw [hd] at h; exact absurd h (by simp)
      | some entries =>
        rw [hd] at h
        simp only [Panics.ok.injEq, Option.some_inj] at h
        subst h
        exact (read_dir_children hd).1


/-- Entries pushed by the Basic loop: always `REGULAR` or `DIRECTORY`,
never a link target, content path equal to the logical path. -/
theorem basicLoop_shape (fs : FS) (lf : Nat) :
    ∀ fuel queue results L,
      (∀ fi ∈ results, fi.symlink_path = none ∧ fi.content_path = fi.path ∧
        (fi.file_type = FileType.REGULAR ∨ fi.file_type = FileType.DIRECTORY)) →
      basicLoop fs lf fuel queue results = some (Panics.ok (some L)) →
      ∀ fi ∈ L, fi.symlink_path = none ∧ fi.content_path = fi.path ∧
        (fi.file_type = FileType.REGULAR ∨ fi.file_type = FileType.DIRECTORY) := by
  intro fuel
  induction fuel with
  | zero =>
    intro queue results L hres h
    cases queue with
    | nil =>
      obtain rfl : results = L := by simpa [basicLoop] using h
      exact hres
    | cons a q => simp [basicLoop] at h
  | succ f ih =>
    intro queue results L hres h
    cases queue with
    | nil =>
      obtain rfl : results = L := by simpa [basicLoop] using h
      exact hres
    | cons a q =>
      have hres' : ∀ fi ∈ results ++ [FileInfo.new a a
          (if is_dir fs lf a then FileType.DIRECTORY else FileType.REGULAR) none],
          fi.symlink_path = none ∧ fi.content_path = fi.path ∧
          (fi.file_type = FileType.REGULAR ∨ fi.file_type = FileType.DIRECTORY) := by
        intro fi hfi
        rcases List.mem_append.1 hfi with h1 | h2
        · exact hres fi h1
        · have hfi2 : fi = FileInfo.new a a
              (if is_dir fs lf a then FileType.DIRECTORY else FileType.REGULAR) none := by
            simpa using h2
          subst hfi2
          refine ⟨rfl, rfl, ?_⟩
          by_cases hdd : is_dir fs lf a = true
          · rw [if_pos hdd]; exact Or.inr rfl
          · rw [if_neg hdd]; exact Or.inl rfl
      by_cases hf : is_file fs lf a = true
      · simp only [basicLoop, if_pos hf] at h
        exact ih _ _ _ hres' h
      · cases hd : read_dir fs lf a with
        | none =>
          simp only [basicLoop, if_neg hf, hd] at h
          exact absurd h (by simp)
        | some entries =>
          simp only [basicLoop, if_neg hf, hd] at h
          by_cases he : entries.any Option.isNone = true
          · rw [if_pos he] at h
            exact absurd h (by simp)
          · rw [if_neg he] at h
            exact ih _ _ _ hres' h

/-- `BasicFilter::list_files` entry shapes, covering both the symlink-root
short circuit and the traversal loop. -/
theorem basic_list_files_entries {fs : FS} {lf fuel : Nat} {root : FsPath}
    {b : Option (List FileInfo)} {L : List FileInfo}
    (h : BasicFilter.list_files fs lf fuel ⟨root, b⟩ = some (Panics.ok (some L))) :
    ∀ fi ∈ L, fi.symlink_path = none ∧ fi.content_path = fi.path ∧
      (fi.file_type = FileType.REGULAR ∨ fi.file_type = FileType.DIRECTORY) := by
  unfold BasicFilter.list_files at h
  by_cases hs : is_symlink fs lf root = true
  · rw [if_pos hs] at h
    obtain rfl : [FileInfo.new root root FileType.REGULAR none] = L := by simpa using h
    intro fi hfi
    obtain rfl : fi = FileInfo.new root root FileType.REGULAR none := by simpa using hfi
    exact ⟨rfl, rfl, Or.inl rfl⟩
  · rw [if_neg hs] at h
    by_cases ht : try_exists fs lf root = true
    · rw [if_neg (not_not_intro ht)] at h
      exact basicLoop_shape fs lf fuel [root] [] L (by simp) h
    · rw [if_pos ht] at h
      exact absurd h (by simp)

/-- Entries pushed by the preserving loop are the classification of their
own path. -/
theorem symLoop_shape (fs : FS) (lf : Nat) :
    ∀ fuel queue results L,
      (∀ fi ∈ results, fi = SymlinkFilter.query_fileinfo fs lf fi.path) →
      symLoop fs lf fuel queue results = some (Panics.ok (some L)) →
      ∀ fi ∈ L, fi = SymlinkFilter.query_fileinfo fs lf fi.path := by
  intro fuel
  induction fuel with
  | zero =>
    intro queue results L hres h
    cases queue with
    | nil =>
      obtain rfl : results = L := by simpa [symLoop] using h
      exact hres
    | cons a q => simp [symLoop] at h
  | succ f ih =>
    intro queue results L hres h
    cases queue with
    | nil =>
      obtain rfl : results = L := by simpa [symLoop] using h
      exact hres
    | cons a q =>
      have hres' : ∀ fi ∈ results ++ [SymlinkFilter.query_fileinfo fs lf a],
          fi = SymlinkFilter.query_fileinfo fs lf fi.path := by
        intro fi hfi
        rcases List.mem_append.1 hfi with h1 | h2
        · exact hres fi h1
        · obtain rfl : fi = SymlinkFilter.query_fileinfo fs lf a := by simpa using h2
          rw [sym_query_fileinfo_path]
      cases hb : SymlinkFilter.query_next_batch fs lf a with
      | panicked =>
        simp only [symLoop, hb] at h
        exact absurd h (by simp)
      | ok ob =>
        cases ob with
        | none =>
          simp only [symLoop, hb] at h
          exact ih _ _ _ hres' h
        | some batch =>
          simp only [symLoop, hb] at h
          exact ih _ _ _ hres' h

/-- `SymlinkFilter::list_files` entry shapes. -/
theorem sym_list_files_entries {fs : FS} {lf fuel : Nat} {root : FsPath}
    {b : Option (List FileInfo)} {L : List FileInfo}
    (h : SymlinkFilter.list_files fs lf fuel ⟨root, b⟩ = some (Panics.ok (some L))) :
    ∀ fi ∈ L, fi = SymlinkFilter.query_fileinfo fs lf fi.path := by
  unfold SymlinkFilter.list_files at h
  by_cases hs : is_symlink fs lf root = true
  · rw [if_pos hs] at h
    obtain rfl : [SymlinkFilter.query_fileinfo fs lf root] = L := by simpa using h
    intro fi hfi
    obtain rfl : fi = SymlinkFilter.query_fileinfo fs lf root := by simpa using hfi
    rw [sym_query_fileinfo_path]
  · rw [if_neg hs] at h
    by_cases ht : try_exists fs lf root = true
    · rw [if_neg (not_not_intro ht)] at h
      exact symLoop_shape fs lf fuel [root] [] L (by simp) h
    · rw [if_pos ht] at h
      exact absurd h (by simp)

/-- A successful chain resolution ends on a non-symlink path. -/
theorem followChain_not_symlink (fs : FS) (lf : Nat) :
    ∀ j t q, followChain fs lf j t = some q → is_symlink fs lf q = false := by
  intro j
  induction j with
  | zero =>
    intro t q h
    unfold followChain at h
    by_cases hs : is_symlink fs lf t = true
    · rw [if_pos hs] at h
      exact absurd h (by simp)
    · rw [if_neg hs] at h
      obtain rfl : t = q := by simpa using h
      simpa using hs
  | succ jj ih =>
    intro t q h
    unfold followChain at h
    by_cases hs : is_symlink fs lf t = true
    · rw [if_pos hs] at h
      cases hrl : read_link fs lf t with
      | none => rw [hrl] at h; exact absurd h (by simp)
      | some t2 => rw [hrl] at h; exact ih _ _ h
    · rw [if_neg hs] at h
      obtain rfl : t = q := by simpa using h
      simpa using hs

/-- A produced follow-policy entry, characterized: its logical path is the
queried path, its kind is `REGULAR` or `DIRECTORY` with no link target;
for a symlink node the content path is the chain-resolved non-symlink
target, for a non-symlink node it is the path itself. -/
theorem follow_query_spec {fs : FS} {lf k : Nat} {p : FsPath} {fi : FileInfo}
    (h : SymlinkFollowFilter.query_fileinfo fs lf k p = some (Panics.ok fi)) :
    fi.path = p ∧
    (fi.file_type = FileType.REGULAR ∨ fi.file_type = FileType.DIRECTORY) ∧
    fi.symlink_path = none ∧
    (is_symlink fs lf p = true →
      ∃ t j, read_link fs lf p = some t ∧ followChain fs lf j t = some fi.content_path ∧
        is_symlink fs lf fi.content_path = false) ∧
    (is_symlink fs lf p = false → fi.content_path = p) := by
  unfold SymlinkFollowFilter.query_fileinfo at h
  by_cases hs : is_symlink fs lf p = true
  · rw [if_pos hs] at h
    cases hrl : read_link fs lf p with
    | none =>
      simp only [SymlinkFollowFilter.follow_link, hrl] at h
      exact absurd h (by simp)
    | some target =>
      cases hc : followChain fs lf k target with
      | none =>
        simp only [SymlinkFollowFilter.follow_link, hrl, hc] at h
        exact absurd h (by simp)
      | some dest =>
        cases p with
        | nil =>
          simp only [SymlinkFollowFilter.follow_link, hrl, hc] at h
          exact absurd h (by simp)
        | cons c rest =>
          simp only [SymlinkFollowFilter.follow_link, hrl, hc] at h
          obtain rfl : FileInfo.new (c :: rest) dest
              (if is_dir fs lf dest then FileType.DIRECTORY else FileType.REGULAR)
              none = fi := by simpa using h
          refine ⟨rfl, ?_, rfl, ?_, ?_⟩
          · by_cases hdd : is_dir fs lf dest = true <;> simp [FileInfo.new, hdd]
          · intro _
            exact ⟨target, k, rfl, hc, followChain_not_symlink fs lf k target dest hc⟩
          · intro hcontra
            rw [hs] at hcontra
            exact absurd hcontra (by simp)
  · rw [if_neg hs] at h
    obtain rfl : FileInfo.new p p
        (if is_dir fs lf p then FileType.DIRECTORY else FileType.REGULAR) none = fi := by
      simpa using h
    refine ⟨rfl, ?_, rfl, ?_, fun _ => rfl⟩
    · by_cases hdd : is_dir fs lf p = true <;> simp [FileInfo.new, hdd]
    · exact fun hcontra => absurd hcontra hs

/-- Entries pushed by the follow loop are classifications of their own
path at some chain budget. -/
theorem followLoop_shape (fs : FS) (lf : Nat) :
    ∀ fuel queue results L,
      (∀ fi ∈ results, ∃ k,
        SymlinkFollowFilter.query_fileinfo fs lf k fi.path = some (Panics.ok fi)) →
      followLoop fs lf fuel queue results = some (Panics.ok (some L)) →
      ∀ fi ∈ L, ∃ k,
        SymlinkFollowFilter.query_fileinfo fs lf k fi.path = some (Panics.ok fi) := by
  intro fuel
  induction fuel with
  | zero =>
    intro queue results L hres h
    cases queue with
    | nil =>
      obtain rfl : results = L := by simpa [followLoop] using h
      exact hres
    | cons a q => simp [followLoop] at h
  | succ f ih =>
    intro queue results L hres h
    cases queue with
    | nil =>
      obtain rfl : results = L := by simpa [followLoop] using h
      exact hres
    | cons a q =>
      cases hq : SymlinkFollowFilter.query_fileinfo fs lf (f + 1) a with
      | none =>
        simp only [followLoop, hq] at h
        exact absurd h (by simp)
      | some pfi =>
        cases pfi with
        | panicked =>
          simp only [followLoop, hq] at h
          exact absurd h (by simp)
        | ok fi =>
          have hres' : ∀ fj ∈ results ++ [fi], ∃ k,
              SymlinkFollowFilter.query_fileinfo fs lf k fj.path = some (Panics.ok fj) := by
            intro fj hfj
            rcases List.mem_append.1 hfj with h1 | h2
            · exact hres fj h1
            · obtain rfl : fj = fi := by simpa using h2
              refine ⟨f + 1, ?_⟩
              rw [(follow_query_spec hq).1]
              exact hq
          cases hb : SymlinkFollowFilter.query_next_batch fs lf (f + 1) a with
          | none =>
            simp only [followLoop, hq, hb] at h
            exact absurd h (by simp)
          | some pb =>
            cases pb with
            | panicked =>
              simp only [followLoop, hq, hb] at h
              exact absurd h (by simp)
            | ok batch =>
              simp only [followLoop, hq, hb] at h
              exact ih _ _ _ hres' h

/-- `SymlinkFollowFilter::list_files` entry shapes. -/
theorem follow_list_files_entries {fs : FS} {lf fuel : Nat} {root : FsPath}
    {b : Option (List FileInfo)} {L : List FileInfo}
    (h : SymlinkFollowFilter.list_files fs lf fuel ⟨root, b⟩ = some (Panics.ok (some L))) :
    ∀ fi ∈ L, ∃ k,
      SymlinkFollowFilter.query_fileinfo fs lf k fi.path = some (Panics.ok fi) := by
  unfold SymlinkFollowFilter.list_files at h
  by_cases ht : try_exists fs lf root = true
  · rw [if_neg (not_not_intro ht)] at h
    exact followLoop_shape fs lf fuel [root] [] L (by simp) h
  · rw [if_pos ht] at h
    exact absurd h (by simp)

theorem not_symlink_read_link {fs : FS} {lf : Nat} {p : FsPath}
    (hs : ¬ is_symlink fs lf p = true) : read_link fs lf p = none := by
  unfold is_symlink at hs
  unfold read_link
  cases hl : lstatNode fs lf p with
  | none => rfl
  | some n =>
    cases n with
    | file => rfl
    | dir b' es => rfl
    | symlink t => rw [hl] at hs; simp at hs

theorem read_link_some_is_symlink {fs : FS} {lf : Nat} {p t : FsPath}
    (h : read_link fs lf p = some t) : is_symlink fs lf p = true := by
  unfold read_link at h
  unfold is_symlink
  cases hl : lstatNode fs lf p with
  | none => rw [hl] at h; simp at h
  | some n =>
    rw [hl] at h
    cases n with
    | file => simp at h
    | dir b' es => simp at h
    | symlink t2 => rfl

/-- The classification `SymlinkFilter::query_fileinfo` computes, read off
against the filesystem: the link target is recorded exactly for symlink
nodes; the kind is `SYMLINK` exactly when the one-hop target exists (by
the following check) and is itself a symlink; the kind is `NONE` (Broken)
exactly when the one-hop target fails the following existence check. -/
theorem sym_query_classification (fs : FS) (lf : Nat) (p : FsPath) :
    ((SymlinkFilter.query_fileinfo fs lf p).symlink_path.isSome = true ↔
      is_symlink fs lf p = true) ∧
    ((SymlinkFilter.query_fileinfo fs lf p).file_type = FileType.SYMLINK ↔
      ∃ t, read_link fs lf p = some t ∧ try_exists fs lf t = true ∧
        is_symlink fs lf t = true) ∧
    ((SymlinkFilter.query_fileinfo fs lf p).file_type = FileType.NONE ↔
      ∃ t, read_link fs lf p = some t ∧ try_exists fs lf t = false) := by
  unfold SymlinkFilter.query_fileinfo
  by_cases hs : is_symlink fs lf p = true
  · obtain ⟨t, ht⟩ := is_symlink_read_link hs
    rw [if_pos hs, ht]
    refine ⟨by simp [FileInfo.new, hs], ?_, ?_⟩
    · by_cases hte : try_exists fs lf t = true
      · by_cases hst : is_symlink fs lf t = true
        · simp [FileInfo.new, hte, hst, ht]
        · by_cases hdd : is_dir fs lf t = true <;>
            simp [FileInfo.new, hte, hst, hdd, ht]
      · simp [FileInfo.new, hte, ht]
    · by_cases hte : try_exists fs lf t = true
      · by_cases hst : is_symlink fs lf t = true
        · simp [FileInfo.new, hte, hst, ht]
        · by_cases hdd : is_dir fs lf t = true <;>
            simp [FileInfo.new, hte, hst, hdd, ht]
      · simp [FileInfo.new, hte, ht]
  · rw [if_neg hs]
    have hrl := not_symlink_read_link hs
    refine ⟨by simp [FileInfo.new, hs], ?_, ?_⟩ <;>
      by_cases hdd : is_dir fs lf p = true <;> simp [FileInfo.new, hdd, hrl]

/-- Children listed by `SymlinkFollowFilter::query_next_batch` extend the
entry's `content_path` — the resolved target — by one component. -/
theorem follow_batch_under_content {fs : FS} {lf k : Nat} {p : FsPath} {fi : FileInfo}
    {batch : List FsPath}
    (hf : SymlinkFollowFilter.query_fileinfo fs lf k p = some (Panics.ok fi))
    (hb : SymlinkFollowFilter.query_next_batch fs lf k p = some (Panics.ok batch)) :
    ∀ x ∈ batch, ∃ nm, x = fi.content_path ++ [nm] := by
  unfold SymlinkFollowFilter.query_next_batch at hb
  simp only [hf] at hb
  by_cases hfile : is_file fs lf fi.content_path = true
  · rw [if_pos hfile] at hb
    obtain rfl : ([] : List FsPath) = batch := by simpa using hb
    intro x hx
    simp at hx
  · rw [if_neg hfile] at hb
    cases hd : read_dir fs lf fi.content_path with
    | none =>
      simp only [hd] at hb
      exact absurd hb (by simp)
    | some entries =>
      simp only [hd] at hb
      by_cases he : entries.any Option.isNone = true
      · rw [if_pos he] at hb
        exact absurd hb (by simp)
      · rw [if_neg he] at hb
        obtain rfl : entries.filterMap id = batch := by simpa using hb
        exact fun x hx => (read_dir_children hd).1 x hx

/-- `SymlinkFilter` leaf discipline: every path ever enqueued is the root
or a child of a non-symlink node, so no entry sits below a symlink. -/
theorem symLoop_leaf (fs : FS) (lf : Nat) (m : Nat) :
    ∀ fuel queue results L,
      (∀ q ∈ queue, q.length = m ∨ is_symlink fs lf q.dropLast = false) →
      (∀ fi ∈ results, fi.path.length = m ∨ is_symlink fs lf fi.path.dropLast = false) →
      symLoop fs lf fuel queue results = some (Panics.ok (some L)) →
      ∀ fi ∈ L, fi.path.length = m ∨ is_symlink fs lf fi.path.dropLast = false := by
  intro fuel
  induction fuel with
  | zero =>
    intro queue results L hq hres h
    cases queue with
    | nil =>
      obtain rfl : results = L := by simpa [symLoop] using h
      exact hres
    | cons a q => simp [symLoop] at h
  | succ f ih =>
    intro queue results L hq hres h
    cases queue with
    | nil =>
      obtain rfl : results = L := by simpa [symLoop] using h
      exact hres
    | cons a q =>
      have hres' : ∀ fi ∈ results ++ [SymlinkFilter.query_fileinfo fs lf a],
          fi.path.length = m ∨ is_symlink fs lf fi.path.dropLast = false := by
        intro fi hfi
        rcases List.mem_append.1 hfi with h1 | h2
        · exact hres fi h1
        · obtain rfl : fi = SymlinkFilter.query_fileinfo fs lf a := by simpa using h2
          rw [sym_query_fileinfo_path]
          exact hq a (List.mem_cons_self a q)
      cases hb : SymlinkFilter.query_next_batch fs lf a with
      | panicked =>
        simp only [symLoop, hb] at h
        exact absurd h (by simp)
      | ok ob =>
        cases ob with
        | none =>
          simp only [symLoop, hb] at h
          exact ih _ _ _ (fun x hx => hq x (List.mem_cons_of_mem a hx)) hres' h
        | some batch =>
          simp only [symLoop, hb] at h
          refine ih _ _ _ ?_ hres' h
          intro x hx
          rcases List.mem_append.1 hx with h1 | h2
          · exact hq x (List.mem_cons_of_mem a h1)
          · obtain ⟨hsym, hshape⟩ := sym_batch_shape hb
            obtain ⟨nm, rfl⟩ := hshape x h2
            right
            rw [List.dropLast_concat]
            exact hsym

/-- `SymlinkFilter::list_files` leaf discipline at scan level. -/
theorem sym_list_files_leaf {fs : FS} {lf fuel : Nat} {root : FsPath}
    {b : Option (List FileInfo)} {L : List FileInfo}
    (h : SymlinkFilter.list_files fs lf fuel ⟨root, b⟩ = some (Panics.ok (some L))) :
    ∀ fi ∈ L, fi.path.length = root.length ∨
      is_symlink fs lf fi.path.dropLast = false := by
  unfold SymlinkFilter.list_files at h
  by_cases hs : is_symlink fs lf root = true
  · rw [if_pos hs] at h
    obtain rfl : [SymlinkFilter.query_fileinfo fs lf root] = L := by simpa using h
    intro fi hfi
    obtain rfl : fi = SymlinkFilter.query_fileinfo fs lf root := by simpa using hfi
    rw [sym_query_fileinfo_path]
    exact Or.inl rfl
  · rw [if_neg hs] at h
    by_cases ht : try_exists fs lf root = true
    · rw [if_neg (not_not_intro ht)] at h
      exact symLoop_leaf fs lf root.length fuel [root] [] L (by simp) (by simp) h
    · rw [if_pos ht] at h
      exact absurd h (by simp)

/-! ### Claim theorems: entry classification -/

/-- C5 (amended): under the Basic policy every produced entry is `REGULAR`
or `DIRECTORY` — never `SYMLINK` or `NONE` — with no link target and with
its own path as both logical path and content source.  (The exact-N-entries
part of the original claim fails: directory symlinks are followed, see the
counterexample.) -/
theorem C5_basic_materialization (fs : FS) (lf fuel : Nat) (root : FsPath)
    (b : Option (List FileInfo)) (L : List FileInfo)
    (h : BasicFilter.list_files fs lf fuel ⟨root, b⟩ = some (Panics.ok (some L))) :
    ∀ fi ∈ L, fi.symlink_path = none ∧ fi.content_path = fi.path ∧
      (fi.file_type = FileType.REGULAR ∨ fi.file_type = FileType.DIRECTORY) :=
  basic_list_files_entries h

/-- Counterexample for C5 as frozen: `fsTree` has 5 filesystem nodes but
the Basic scan yields 6 entries; the extra entry lies below the directory
symlink `r/l`, whose target was followed. -/
theorem C5_basic_exact_count_cex :
    fsTree.length = 5 ∧
    (scanList (BasicFilter.list_files fsTree 8 20 ⟨["r"], none⟩)).length = 6 ∧
    FileInfo.new ["r", "l", "b"] ["r", "l", "b"] FileType.REGULAR none ∈
      scanList (BasicFilter.list_files fsTree 8 20 ⟨["r"], none⟩) := by
  decide

/-- Witness for C5 at a concrete scan: the directory-symlink entry of the
Basic manifest of `fsTree` is `DIRECTORY`, carries no link target, and
uses its own path as content source. -/
theorem C5_basic_materialization_witness :
    (FileInfo.new ["r", "l"] ["r", "l"] FileType.DIRECTORY none).symlink_path = none ∧
    (FileInfo.new ["r", "l"] ["r", "l"] FileType.DIRECTORY none).content_path =
      (FileInfo.new ["r", "l"] ["r", "l"] FileType.DIRECTORY none).path ∧
    ((FileInfo.new ["r", "l"] ["r", "l"] FileType.DIRECTORY none).file_type =
        FileType.REGULAR ∨
      (FileInfo.new ["r", "l"] ["r", "l"] FileType.DIRECTORY none).file_type =
        FileType.DIRECTORY) :=
  C5_basic_materialization fsTree 8 20 ["r"] none
    (scanList (BasicFilter.list_files fsTree 8 20 ⟨["r"], none⟩)) (by decide)
    (FileInfo.new ["r", "l"] ["r", "l"] FileType.DIRECTORY none) (by decide)

/-- C3 (amended): the link target is present exactly on entries whose own
node is a symlink, under the preserving policy — including entries whose
kind is `REGULAR`, `DIRECTORY` or `NONE` (so the frozen "iff kind =
Symlink" fails, see the counterexample); kind `SYMLINK` still implies a
link target; the Basic and follow policies never record a link target. -/
theorem C3_link_target_policy (fs : FS) (lf fuel : Nat) (root : FsPath)
    (b : Option (List FileInfo)) :
    (∀ L, SymlinkFilter.list_files fs lf fuel ⟨root, b⟩ = some (Panics.ok (some L)) →
      ∀ fi ∈ L, (fi.symlink_path.isSome = true ↔ is_symlink fs lf fi.path = true) ∧
        (fi.file_type = FileType.SYMLINK → fi.symlink_path.isSome = true)) ∧
    (∀ L, BasicFilter.list_files fs lf fuel ⟨root, b⟩ = some (Panics.ok (some L)) →
      ∀ fi ∈ L, fi.symlink_path = none) ∧
    (∀ L, SymlinkFollowFilter.list_files fs lf fuel ⟨root, b⟩ = some (Panics.ok (some L)) →
      ∀ fi ∈ L, fi.symlink_path = none) := by
  refine ⟨?_, ?_, ?_⟩
  · intro L h fi hfi
    have hfiq := sym_list_files_entries h fi hfi
    constructor
    · have h1 := (sym_query_classification fs lf fi.path).1
      rw [← hfiq] at h1
      exact h1
    · intro hft
      have h2 := (sym_query_classification fs lf fi.path).2.1
      rw [← hfiq] at h2
      obtain ⟨t, hrl, -, -⟩ := h2.mp hft
      have h1 := (sym_query_classification fs lf fi.path).1
      rw [← hfiq] at h1
      exact h1.mpr (read_link_some_is_symlink hrl)
  · intro L h fi hfi
    exact (basic_list_files_entries h fi hfi).1
  · intro L h fi hfi
    obtain ⟨k, hk⟩ := follow_list_files_entries h fi hfi
    exact (follow_query_spec hk).2.2.1

/-- Counterexample for C3 as frozen: the preserving scan of `fsTree`
contains an entry of kind `DIRECTORY` that carries a link target (the
directory symlink `r/l`). -/
theorem C3_link_target_cex :
    ∃ fi ∈ scanList (SymlinkFilter.list_files fsTree 8 20 ⟨["r"], none⟩),
      fi.file_type = FileType.DIRECTORY ∧ fi.symlink_path ≠ none := by
  decide

/-- Witness for C3 at a concrete scan: the `r/l` entry of the preserving
manifest of `fsTree` carries a link target, and its node is a symlink. -/
theorem C3_link_target_policy_witness :
    (FileInfo.new ["r", "l"] ["r", "l"] FileType.DIRECTORY
        (some ["r", "s"])).symlink_path.isSome = true ↔
      is_symlink fsTree 8 (FileInfo.new ["r", "l"] ["r", "l"] FileType.DIRECTORY
        (some ["r", "s"])).path = true :=
  (((C3_link_target_policy fsTree 8 20 ["r"] none).1
    (scanList (SymlinkFilter.list_files fsTree 8 20 ⟨["r"], none⟩)) (by decide)
    (FileInfo.new ["r", "l"] ["r", "l"] FileType.DIRECTORY (some ["r", "s"]))
    (by decide)).1)

/-- A symlink whose one-hop target exists (by the following check) and is
not itself a symlink is classified by the target's kind
(`points_to.is_dir()`). -/
theorem sym_query_target_kind (fs : FS) (lf : Nat) (p t : FsPath)
    (hrl : read_link fs lf p = some t) (hte : try_exists fs lf t = true)
    (hst : is_symlink fs lf t = false) :
    (SymlinkFilter.query_fileinfo fs lf p).file_type =
      (if is_dir fs lf t then FileType.DIRECTORY else FileType.REGULAR) := by
  have hs : is_symlink fs lf p = true := read_link_some_is_symlink hrl
  unfold SymlinkFilter.query_fileinfo
  rw [if_pos hs, hrl]
  simp [FileInfo.new, hte, hst]

/-- C7 (amended): under the preserving policy every entry's kind is read
off a one-hop inspection of its target, with the existence check first:
`NONE` (Broken) exactly when the one-hop target fails the following
existence check — including a target that is a symlink with a broken
deeper chain — `SYMLINK` exactly when the target exists and is itself a
symlink, and otherwise the target's own `REGULAR`/`DIRECTORY` kind; and
every symlink entry is a leaf (no entry sits below a symlink node). -/
theorem C7_preserving_classification (fs : FS) (lf fuel : Nat) (root : FsPath)
    (b : Option (List FileInfo)) (L : List FileInfo)
    (h : SymlinkFilter.list_files fs lf fuel ⟨root, b⟩ = some (Panics.ok (some L))) :
    ∀ fi ∈ L,
      (fi.file_type = FileType.SYMLINK ↔
        ∃ t, read_link fs lf fi.path = some t ∧ try_exists fs lf t = true ∧
          is_symlink fs lf t = true) ∧
      (fi.file_type = FileType.NONE ↔
        ∃ t, read_link fs lf fi.path = some t ∧ try_exists fs lf t = false) ∧
      (∀ t, read_link fs lf fi.path = some t → try_exists fs lf t = true →
        is_symlink fs lf t = false →
        fi.file_type =
          (if is_dir fs lf t then FileType.DIRECTORY else FileType.REGULAR)) ∧
      (fi.path.length = root.length ∨ is_symlink fs lf fi.path.dropLast = false) := by
  intro fi hfi
  have hfiq := sym_list_files_entries h fi hfi
  refine ⟨?_, ?_, ?_, sym_list_files_leaf h fi hfi⟩
  · have h2 := (sym_query_classification fs lf fi.path).2.1
    rw [← hfiq] at h2
    exact h2
  · have h3 := (sym_query_classification fs lf fi.path).2.2
    rw [← hfiq] at h3
    exact h3
  · intro t hrl hte hst
    have h4 := sym_query_target_kind fs lf fi.path t hrl hte hst
    rw [← hfiq] at h4
    exact h4

/-- Counterexample for C7 as frozen: in `fsChain` the symlink `r/a` points
at the symlink `r/b` whose own target is missing; the claim mandates kind
`SYMLINK` ("regardless of deeper resolution"), but the scan classifies it
`NONE` (Broken) because the existence check runs first. -/
theorem C7_preserving_classification_cex :
    FileInfo.new ["r", "a"] ["r", "a"] FileType.NONE (some ["r", "b"]) ∈
      scanList (SymlinkFilter.list_files fsChain 8 20 ⟨["r"], none⟩) ∧
    is_symlink fsChain 8 ["r", "b"] = true := by
  decide

/-- Witness for C7 at concrete scans: the `r/a` entry of `fsChain` is
`NONE` because its one-hop target fails the following existence check,
and the `r/l` entry of `fsTree` — a symlink to the existing non-symlink
directory `r/s` — is classified by its target's kind, `DIRECTORY`. -/
theorem C7_preserving_classification_witness :
    (∃ t, read_link fsChain 8 ["r", "a"] = some t ∧ try_exists fsChain 8 t = false) ∧
    (FileInfo.new ["r", "l"] ["r", "l"] FileType.DIRECTORY (some ["r", "s"])).file_type =
      (if is_dir fsTree 8 ["r", "s"] then FileType.DIRECTORY else FileType.REGULAR) :=
  ⟨((C7_preserving_classification fsChain 8 20 ["r"] none
      (scanList (SymlinkFilter.list_files fsChain 8 20 ⟨["r"], none⟩)) (by decide)
      (FileInfo.new ["r", "a"] ["r", "a"] FileType.NONE (some ["r", "b"]))
      (by decide)).2.1).mp rfl,
   (C7_preserving_classification fsTree 8 20 ["r"] none
      (scanList (SymlinkFilter.list_files fsTree 8 20 ⟨["r"], none⟩)) (by decide)
      (FileInfo.new ["r", "l"] ["r", "l"] FileType.DIRECTORY (some ["r", "s"]))
      (by decide)).2.2.1 ["r", "s"] (by decide) (by decide) (by decide)⟩

/-- C1 (amended): under the follow policy a completed scan contains only
`REGULAR`/`DIRECTORY` entries with no link target; a symlink node's entry
keeps the symlink's path as logical path while its content source is the
chain-resolved non-symlink target; but the children of a resolved
directory are enumerated from — and placed under — the resolved target
path, not the original symlink path (the frozen claim's last part fails,
see the counterexample). -/
theorem C1_follow_resolution (fs : FS) (lf : Nat) :
    (∀ fuel root b L,
      SymlinkFollowFilter.list_files fs lf fuel ⟨root, b⟩ = some (Panics.ok (some L)) →
      ∀ fi ∈ L, (fi.file_type = FileType.REGULAR ∨ fi.file_type = FileType.DIRECTORY) ∧
        fi.symlink_path = none ∧
        (is_symlink fs lf fi.path = true →
          ∃ t j, read_link fs lf fi.path = some t ∧
            followChain fs lf j t = some fi.content_path ∧
            is_symlink fs lf fi.content_path = false) ∧
        (is_symlink fs lf fi.path = false → fi.content_path = fi.path)) ∧
    (∀ k p fi batch,
      SymlinkFollowFilter.query_fileinfo fs lf k p = some (Panics.ok fi) →
      SymlinkFollowFilter.query_next_batch fs lf k p = some (Panics.ok batch) →
      ∀ x ∈ batch, ∃ nm, x = fi.content_path ++ [nm]) := by
  constructor
  · intro fuel root b L h fi hfi
    obtain ⟨k, hk⟩ := follow_list_files_entries h fi hfi
    have hspec := follow_query_spec hk
    exact ⟨hspec.2.1, hspec.2.2.1, hspec.2.2.2.1, hspec.2.2.2.2⟩
  · intro k p fi batch hf hb
    exact follow_batch_under_content hf hb

/-- Counterexample for C1 as frozen: the follow scan of `fsTree` places
the child reached through the symlink `r/l` at the resolved path
`r/s/b` (twice), and no entry has the symlink-rooted path `r/l/b` that the
claim mandates. -/
theorem C1_follow_resolution_cex :
    SymlinkFollowFilter.list_files fsTree 8 20 ⟨["r"], none⟩ =
      some (Panics.ok (some
        [FileInfo.new ["r"] ["r"] FileType.DIRECTORY none,
         FileInfo.new ["r", "a"] ["r", "a"] FileType.REGULAR none,
         FileInfo.new ["r", "s"] ["r", "s"] FileType.DIRECTORY none,
         FileInfo.new ["r", "l"] ["r", "s"] FileType.DIRECTORY none,
         FileInfo.new ["r", "s", "b"] ["r", "s", "b"] FileType.REGULAR none,
         FileInfo.new ["r", "s", "b"] ["r", "s", "b"] FileType.REGULAR none])) := by
  decide

/-- Witness for C1 at a concrete scan: the symlink entry `r/l` of the
follow manifest of `fsTree` is `REGULAR` or `DIRECTORY`, and its content
source is the chain-resolved non-symlink target of the link. -/
theorem C1_follow_resolution_witness :
    ((FileInfo.new ["r", "l"] ["r", "s"] FileType.DIRECTORY none).file_type =
        FileType.REGULAR ∨
      (FileInfo.new ["r", "l"] ["r", "s"] FileType.DIRECTORY none).file_type =
        FileType.DIRECTORY) ∧
    (∃ t j, read_link fsTree 8 ["r", "l"] = some t ∧
      followChain fsTree 8 j t =
        some (FileInfo.new ["r", "l"] ["r", "s"] FileType.DIRECTORY none).content_path ∧
      is_symlink fsTree 8
        (FileInfo.new ["r", "l"] ["r", "s"] FileType.DIRECTORY none).content_path = false) :=
  ⟨((C1_follow_resolution fsTree 8).1 20 ["r"] none
      (scanList (SymlinkFollowFilter.list_files fsTree 8 20 ⟨["r"], none⟩)) (by decide)
      (FileInfo.new ["r", "l"] ["r", "s"] FileType.DIRECTORY none) (by decide)).1,
   ((C1_follow_resolution fsTree 8).1 20 ["r"] none
      (scanList (SymlinkFollowFilter.list_files fsTree 8 20 ⟨["r"], none⟩)) (by decide)
      (FileInfo.new ["r", "l"] ["r", "s"] FileType.DIRECTORY none) (by decide)).2.2.1
    (by decide)⟩

theorem sym_batch_nodup {fs : FS} {lf : Nat} {p : FsPath} {batch : List FsPath}
    (hnd : entriesNodup fs)
    (h : SymlinkFilter.query_next_batch fs lf p = Panics.ok (some batch)) :
    batch.Nodup := by
  unfold SymlinkFilter.query_next_batch at h
  by_cases hs : is_symlink fs lf p = true
  · rw [if_pos hs] at h
    exact absurd h (by simp)
  · rw [if_neg hs] at h
    by_cases hf : is_file fs lf p = true
    · rw [if_pos hf] at h
      exact absurd h (by simp)
    · rw [if_neg hf] at h
      cases hd : read_dir fs lf p with
      | none => rw [hd] at h; exact absurd h (by simp)
      | some entries =>
        rw [hd] at h
        simp only [Panics.ok.injEq, Option.some_inj] at h
        subst h
        exact (read_dir_children hd).2 hnd

/-- One step of the breadth-first invariant, as a pure list fact: popping
`a` and enqueuing its freshly named children preserves "visited paths and
queue are duplicate-free, every tracked path is at least root-deep, and
every tracked path deeper than the root has its parent among the visited
paths". -/
theorem bfs_step_invariant {P : List FsPath} {a : FsPath} {q batch : List FsPath} {m : Nat}
    (hnodup : (P ++ a :: q).Nodup)
    (hlen : ∀ x ∈ P ++ a :: q, m ≤ x.length)
    (hpar : ∀ x ∈ P ++ a :: q, x.length = m ∨ x.dropLast ∈ P)
    (hbn : batch.Nodup)
    (hbs : ∀ x ∈ batch, ∃ nm, x = a ++ [nm]) :
    ((P ++ [a]) ++ (q ++ batch)).Nodup ∧
    (∀ x ∈ (P ++ [a]) ++ (q ++ batch), m ≤ x.length) ∧
    (∀ x ∈ (P ++ [a]) ++ (q ++ batch), x.length = m ∨ x.dropLast ∈ P ++ [a]) := by
  have hflat : (P ++ [a]) ++ (q ++ batch) = (P ++ a :: q) ++ batch := by simp
  have ha : a ∈ P ++ a :: q := List.mem_append_right _ (List.mem_cons_self a q)
  have hma : m ≤ a.length := hlen a ha
  have hfresh : ∀ x ∈ batch, x ∉ P ++ a :: q := by
    intro x hx hmem
    obtain ⟨nm, rfl⟩ := hbs x hx
    rcases hpar _ hmem with hl | hdp
    · rw [List.length_append, List.length_singleton] at hl
      omega
    · rw [List.dropLast_concat] at hdp
      have hdisj := (List.nodup_append.1 hnodup).2.2
      exact hdisj hdp (List.mem_cons_self a q)
  refine ⟨?_, ?_, ?_⟩
  · rw [hflat, List.nodup_append]
    exact ⟨hnodup, hbn, fun x hx1 hx2 => hfresh x hx2 hx1⟩
  · intro x hx
    rw [hflat] at hx
    rcases List.mem_append.1 hx with hxo | hxb
    · exact hlen x hxo
    · obtain ⟨nm, rfl⟩ := hbs x hxb
      rw [List.length_append, List.length_singleton]
      omega
  · intro x hx
    rw [hflat] at hx
    rcases List.mem_append.1 hx with hxo | hxb
    · rcases hpar x hxo with h | h
      · exact Or.inl h
      · exact Or.inr (List.mem_append_left _ h)
    · obtain ⟨nm, rfl⟩ := hbs x hxb
      right
      rw [List.dropLast_concat]
      exact List.mem_append_right _ (by simp)

/-- The preserving loop visits each path at most once: logical paths of a
completed run are duplicate-free (directory listings being
duplicate-free). -/
theorem symLoop_nodup (fs : FS) (lf : Nat) (hnd : entriesNodup fs) (m : Nat) :
    ∀ fuel queue results L,
      ((results.map FileInfo.path) ++ queue).Nodup →
      (∀ x ∈ (results.map FileInfo.path) ++ queue, m ≤ x.length) →
      (∀ x ∈ (results.map FileInfo.path) ++ queue,
        x.length = m ∨ x.dropLast ∈ results.map FileInfo.path) →
      symLoop fs lf fuel queue results = some (Panics.ok (some L)) →
      (L.map FileInfo.path).Nodup := by
  intro fuel
  induction fuel with
  | zero =>
    intro queue results L h1 h2 h3 h
    cases queue with
    | nil =>
      obtain rfl : results = L := by simpa [symLoop] using h
      simpa using h1
    | cons a q => simp [symLoop] at h
  | succ f ih =>
    intro queue results L h1 h2 h3 h
    cases queue with
    | nil =>
      obtain rfl : results = L := by simpa [symLoop] using h
      simpa using h1
    | cons a q =>
      have hmap : (results ++ [SymlinkFilter.query_fileinfo fs lf a]).map FileInfo.path
          = results.map FileInfo.path ++ [a] := by
        simp [sym_query_fileinfo_path]
      cases hb : SymlinkFilter.query_next_batch fs lf a with
      | panicked =>
        simp only [symLoop, hb] at h
        exact absurd h (by simp)
      | ok ob =>
        cases ob with
        | none =>
          simp only [symLoop, hb] at h
          have hstep := @bfs_step_invariant _ _ _ [] _ h1 h2 h3 List.nodup_nil
            (by simp)
          rw [List.append_nil] at hstep
          refine ih q _ L ?_ ?_ ?_ h
          · rw [hmap]; exact hstep.1
          · rw [hmap]; exact hstep.2.1
          · rw [hmap]; exact hstep.2.2
        | some batch =>
          simp only [symLoop, hb] at h
          have hstep := bfs_step_invariant h1 h2 h3 (sym_batch_nodup hnd hb)
            (sym_batch_shape hb).2
          refine ih (q ++ batch) _ L ?_ ?_ ?_ h
          · rw [hmap]; exact hstep.1
          · rw [hmap]; exact hstep.2.1
          · rw [hmap]; exact hstep.2.2

/-- The Basic loop visits each path at most once as well (its children,
even those of a followed directory symlink, are placed under the dequeued
path itself). -/
theorem basicLoop_nodup (fs : FS) (lf : Nat) (hnd : entriesNodup fs) (m : Nat) :
    ∀ fuel queue results L,
      ((results.map FileInfo.path) ++ queue).Nodup →
      (∀ x ∈ (results.map FileInfo.path) ++ queue, m ≤ x.length) →
      (∀ x ∈ (results.map FileInfo.path) ++ queue,
        x.length = m ∨ x.dropLast ∈ results.map FileInfo.path) →
      basicLoop fs lf fuel queue results = some (Panics.ok (some L)) →
      (L.map FileInfo.path).Nodup := by
  intro fuel
  induction fuel with
  | zero =>
    intro queue results L h1 h2 h3 h
    cases queue with
    | nil =>
      obtain rfl : results = L := by simpa [basicLoop] using h
      simpa using h1
    | cons a q => simp [basicLoop] at h
  | succ f ih =>
    intro queue results L h1 h2 h3 h
    cases queue with
    | nil =>
      obtain rfl : results = L := by simpa [basicLoop] using h
      simpa using h1
    | cons a q =>
      have hmap : (results ++ [FileInfo.new a a
          (if is_dir fs lf a then FileType.DIRECTORY else FileType.REGULAR) none]).map
            FileInfo.path = results.map FileInfo.path ++ [a] := by
        simp [FileInfo.new]
      by_cases hf : is_file fs lf a = true
      · simp only [basicLoop, if_pos hf] at h
        have hstep := @bfs_step_invariant _ _ _ [] _ h1 h2 h3 List.nodup_nil
          (by simp)
        rw [List.append_nil] at hstep
        refine ih q _ L ?_ ?_ ?_ h
        · rw [hmap]; exact hstep.1
        · rw [hmap]; exact hstep.2.1
        · rw [hmap]; exact hstep.2.2
      · cases hd : read_dir fs lf a with
        | none =>
          simp only [basicLoop, if_neg hf, hd] at h
          exact absurd h (by simp)
        | some entries =>
          simp only [basicLoop, if_neg hf, hd] at h
          by_cases he : entries.any Option.isNone = true
          · rw [if_pos he] at h
            exact absurd h (by simp)
          · rw [if_neg he] at h
            have hstep := bfs_step_invariant h1 h2 h3
              ((read_dir_children hd).2 hnd) (read_dir_children hd).1
            refine ih (q ++ entries.filterMap id) _ L ?_ ?_ ?_ h
            · rw [hmap]; exact hstep.1
            · rw [hmap]; exact hstep.2.1
            · rw [hmap]; exact hstep.2.2

/-! ### Claim theorems: uniqueness of logical paths -/

/-- C2 (amended): under the Basic and preserving policies a completed
scan's logical paths are pairwise distinct (each filesystem node visited
at most once), provided directory listings are duplicate-free; under the
follow policy duplicates occur (see the counterexample). -/
theorem C2_no_duplicates (fs : FS) (lf fuel : Nat) (root : FsPath)
    (b : Option (List FileInfo)) (hnd : entriesNodup fs) :
    (∀ L, BasicFilter.list_files fs lf fuel ⟨root, b⟩ = some (Panics.ok (some L)) →
      (L.map FileInfo.path).Nodup) ∧
    (∀ L, SymlinkFilter.list_files fs lf fuel ⟨root, b⟩ = some (Panics.ok (some L)) →
      (L.map FileInfo.path).Nodup) := by
  constructor
  · intro L h
    unfold BasicFilter.list_files at h
    by_cases hs : is_symlink fs lf root = true
    · rw [if_pos hs] at h
      obtain rfl : [FileInfo.new root root FileType.REGULAR none] = L := by simpa using h
      simp
    · rw [if_neg hs] at h
      by_cases ht : try_exists fs lf root = true
      · rw [if_neg (not_not_intro ht)] at h
        exact basicLoop_nodup fs lf hnd root.length fuel [root] [] L (by simp)
          (by simp) (by simp) h
      · rw [if_pos ht] at h
        exact absurd h (by simp)
  · intro L h
    unfold SymlinkFilter.list_files at h
    by_cases hs : is_symlink fs lf root = true
    · rw [if_pos hs] at h
      obtain rfl : [SymlinkFilter.query_fileinfo fs lf root] = L := by simpa using h
      simp
    · rw [if_neg hs] at h
      by_cases ht : try_exists fs lf root = true
      · rw [if_neg (not_not_intro ht)] at h
        exact symLoop_nodup fs lf hnd root.length fuel [root] [] L (by simp)
          (by simp) (by simp) h
      · rw [if_pos ht] at h
        exact absurd h (by simp)

/-- Counterexample for C2 as frozen: the follow scan of `fsTree` emits the
logical path `r/s/b` twice — the node is visited once as a child of `r/s`
and once as a child of the symlink `r/l` resolved to `r/s`. -/
theorem C2_no_duplicates_cex :
    ¬ ((scanList (SymlinkFollowFilter.list_files fsTree 8 20 ⟨["r"], none⟩)).map
        FileInfo.path).Nodup := by
  decide

/-- Witness for C2 at a concrete scan: the preserving manifest of `fsTree`
has pairwise distinct logical paths. -/
theorem C2_no_duplicates_witness :
    ((scanList (SymlinkFilter.list_files fsTree 8 20 ⟨["r"], none⟩)).map
      FileInfo.path).Nodup :=
  (C2_no_duplicates fsTree 8 20 ["r"] none (by decide)).2
    (scanList (SymlinkFilter.list_files fsTree 8 20 ⟨["r"], none⟩)) (by decide)

/-! ### Lemmas for error propagation (C4) -/

theorem realpathGo_result (fs : FS) (recur : List String → Option FsPath)
    (hrec : ∀ l r, recur l = some r →
      r = [] ∨ ∀ t, rawLookup fs r ≠ some (Node.symlink t)) :
    ∀ l r, realpathGo fs recur l = some r →
      r = [] ∨ ∀ t, rawLookup fs r ≠ some (Node.symlink t) := by
  intro l
  induction l with
  | nil =>
    intro r h
    left
    have : some ([] : FsPath) = some r := by simpa [realpathGo] using h
    simpa using this.symm
  | cons c rest ih =>
    intro r h
    unfold realpathGo at h
    cases hq : realpathGo fs recur rest with
    | none => simp [hq] at h
    | some d =>
      simp only [hq] at h
      cases hr : rawLookup fs (d ++ [c]) with
      | none =>
        simp only [hr] at h
        obtain rfl : d ++ [c] = r := by simpa using h
        right
        intro t hcontra
        rw [hr] at hcontra
        exact absurd hcontra (by simp)
      | some n =>
        cases n with
        | symlink t =>
          simp only [hr] at h
          exact hrec _ _ h
        | file =>
          simp only [hr] at h
          obtain rfl : d ++ [c] = r := by simpa using h
          right
          intro t hcontra
          rw [hr] at hcontra
          exact absurd hcontra (by simp)
        | dir b' es =>
          simp only [hr] at h
          obtain rfl : d ++ [c] = r := by simpa using h
          right
          intro t hcontra
          rw [hr] at hcontra
          exact absurd hcontra (by simp)

/-- A resolved path is never itself a symlink (or it is the empty path). -/
theorem realpathRev_result (fs : FS) :
    ∀ fuel l r, realpathRev fs fuel l = some r →
      r = [] ∨ ∀ t, rawLookup fs r ≠ some (Node.symlink t) := by
  intro fuel
  induction fuel with
  | zero =>
    exact realpathGo_result fs _ (fun l r h => by simp at h)
  | succ f ih =>
    exact realpathGo_result fs _ ih

/-- With no node at the empty path, a following stat never returns a
symlink node. -/
theorem statNode_not_symlink {fs : FS} {lf : Nat} {p t : FsPath}
    (h0 : rawLookup fs [] = none) : statNode fs lf p ≠ some (Node.symlink t) := by
  intro h
  obtain ⟨d, hd, hraw⟩ := statNode_some h
  rcases realpathRev_result fs lf p.reverse d hd with rfl | hns
  · rw [h0] at hraw
    exact absurd hraw (by simp)
  · exact hns t hraw

/-- `lstat` of a one-component extension, through the parent's resolved
path. -/
theorem lstat_append {fs : FS} {lf : Nat} {p d : FsPath} (c : String)
    (h : realpath fs lf p = some d) :
    lstatNode fs lf (p ++ [c]) = rawLookup fs (d ++ [c]) := by
  unfold lstatNode
  rw [show (p ++ [c]).reverse = c :: p.reverse by simp]
  have h' : realpathRev fs lf p.reverse = some d := h
  simp only [h']

/-- Following stat of a one-component extension whose raw node is not a
symlink. -/
theorem stat_append {fs : FS} {lf : Nat} {p d : FsPath} {c : String} {n : Node}
    (h : realpath fs lf p = some d) (hraw : rawLookup fs (d ++ [c]) = some n)
    (hns : ∀ t, n ≠ Node.symlink t) :
    statNode fs lf (p ++ [c]) = some n := by
  unfold statNode realpath
  rw [show (p ++ [c]).reverse = c :: p.reverse by simp]
  rw [realpathRev_cons]
  have h' : realpathRev fs lf p.reverse = some d := h
  rw [h']
  cases n with
  | symlink t => exact absurd rfl (hns t)
  | file => simp [hraw]
  | dir b' es => simp [hraw]

/-- A present child of a resolved directory is a symlink or has a
successful following stat. -/
theorem child_statok {fs : FS} {lf : Nat} {p d : FsPath} {c : String}
    (h : realpath fs lf p = some d) (hex : rawLookup fs (d ++ [c]) ≠ none) :
    is_symlink fs lf (p ++ [c]) = true ∨ (statNode fs lf (p ++ [c])).isSome = true := by
  cases hraw : rawLookup fs (d ++ [c]) with
  | none => exact absurd hraw hex
  | some n =>
    cases n with
    | symlink t =>
      left
      unfold is_symlink
      rw [lstat_append c h, hraw]
    | file =>
      right
      rw [stat_append h hraw (by simp)]
      rfl
    | dir b' es =>
      right
      rw [stat_append h hraw (by simp)]
      rfl

/-- In a readable tree, `SymlinkFilter::query_next_batch` never panics on
a path that is a symlink or has a successful following stat. -/
theorem sym_batch_no_panic {fs : FS} {lf : Nat} {x : FsPath} (hrt : readableTree fs)
    (hok : is_symlink fs lf x = true ∨ (statNode fs lf x).isSome = true) :
    SymlinkFilter.query_next_batch fs lf x ≠ Panics.panicked := by
  unfold SymlinkFilter.query_next_batch
  by_cases hs : is_symlink fs lf x = true
  · rw [if_pos hs]; simp
  · rw [if_neg hs]
    rcases hok with h | h
    · exact absurd h hs
    · obtain ⟨n, hn⟩ := Option.isSome_iff_exists.mp h
      cases n with
      | symlink t => exact absurd hn (statNode_not_symlink hrt.1)
      | file =>
        have hf : is_file fs lf x = true := by simp [is_file, hn]
        rw [if_pos hf]; simp
      | dir b' es =>
        obtain ⟨d, hd, hraw⟩ := statNode_some hn
        have hck := hrt.2 _ (rawLookup_mem hraw)
        have hb : b' = true := by
          simp only [childrenPresentB, Bool.and_eq_true] at hck
          exact hck.1
        subst hb
        have hf : ¬ is_file fs lf x = true := by simp [is_file, hn]
        rw [if_neg hf]
        have hrd : read_dir fs lf x = some (es.map (Option.map fun nm => x ++ [nm])) := by
          simp [read_dir, hn]
        rw [hrd]
        simp

/-- In a readable tree, children enqueued by the preserving loop are
symlinks or have a successful following stat. -/
theorem sym_batch_children_ok {fs : FS} {lf : Nat} {x : FsPath} {batch : List FsPath}
    (hrt : readableTree fs)
    (h : SymlinkFilter.query_next_batch fs lf x = Panics.ok (some batch)) :
    ∀ y ∈ batch, is_symlink fs lf y = true ∨ (statNode fs lf y).isSome = true := by
  unfold SymlinkFilter.query_next_batch at h
  by_cases hs : is_symlink fs lf x = true
  · rw [if_pos hs] at h
    exact absurd h (by simp)
  · rw [if_neg hs] at h
    by_cases hf : is_file fs lf x = true
    · rw [if_pos hf] at h
      exact absurd h (by simp)
    · rw [if_neg hf] at h
      cases hd : read_dir fs lf x with
      | none => rw [hd] at h; exact absurd h (by simp)
      | some entries =>
        rw [hd] at h
        simp only [Panics.ok.injEq, Option.some_inj] at h
        subst h
        obtain ⟨es, hstat, rfl⟩ := read_dir_entries hd
        obtain ⟨d, hd', hraw⟩ := statNode_some hstat
        have hck := hrt.2 _ (rawLookup_mem hraw)
        simp only [childrenPresentB, Bool.and_eq_true, List.all_eq_true] at hck
        intro y hy
        rw [filterMap_id_map_option] at hy
        obtain ⟨nm, hnm, rfl⟩ := List.mem_map.1 hy
        have hex := hck.2 nm hnm
        exact child_statok hd' (by
          intro hc
          rw [hc] at hex
          simp at hex)

/-- In a readable tree the preserving loop never panics when every queued
path is a symlink or has a successful following stat. -/
theorem symLoop_no_panic (fs : FS) (lf : Nat) (hrt : readableTree fs) :
    ∀ fuel queue results,
      (∀ x ∈ queue, is_symlink fs lf x = true ∨ (statNode fs lf x).isSome = true) →
      symLoop fs lf fuel queue results ≠ some Panics.panicked := by
  intro fuel
  induction fuel with
  | zero =>
    intro queue results hq h
    cases queue with
    | nil => simp [symLoop] at h
    | cons a q => simp [symLoop] at h
  | succ f ih =>
    intro queue results hq h
    cases queue with
    | nil => simp [symLoop] at h
    | cons a q =>
      cases hb : SymlinkFilter.query_next_batch fs lf a with
      | panicked =>
        exact sym_batch_no_panic hrt (hq a (List.mem_cons_self a q)) hb
      | ok ob =>
        cases ob with
        | none =>
          simp only [symLoop, hb] at h
          exact ih q _ (fun x hx => hq x (List.mem_cons_of_mem a hx)) h
        | some batch =>
          simp only [symLoop, hb] at h
          refine ih (q ++ batch) _ ?_ h
          intro x hx
          rcases List.mem_append.1 hx with h1 | h2
          · exact hq x (List.mem_cons_of_mem a h1)
          · exact sym_batch_children_ok hrt hb x h2

/-! ### Claim theorems: listing failures (C4) -/

/-- C4 (amended): only the preserving policy swallows per-entry listing
failures — on a readable tree it never panics, failing entries are simply
omitted (second conjunct: the failing entry of `r/d` in `fsBadEntry` is
dropped and the scan completes) — whereas the follow policy panics on the
same tree (third conjunct; the Basic policy likewise, see the
counterexample), and a whole-directory listing failure panics even the
preserving policy (fourth conjunct). -/
theorem C4_listing_failures (fs : FS) (hrt : readableTree fs) :
    (∀ lf fuel root b, SymlinkFilter.list_files fs lf fuel ⟨root, b⟩ ≠
      some Panics.panicked) ∧
    SymlinkFilter.list_files fsBadEntry 8 20 ⟨["r"], none⟩ =
      some (Panics.ok (some
        [FileInfo.new ["r"] ["r"] FileType.DIRECTORY none,
         FileInfo.new ["r", "d"] ["r", "d"] FileType.DIRECTORY none,
         FileInfo.new ["r", "d", "x"] ["r", "d", "x"] FileType.REGULAR none])) ∧
    SymlinkFollowFilter.list_files fsBadEntry 8 20 ⟨["r"], none⟩ =
      some Panics.panicked ∧
    SymlinkFilter.list_files fsUnreadable 8 20 ⟨["r"], none⟩ =
      some Panics.panicked := by
  refine ⟨?_, by decide, by decide, by decide⟩
  intro lf fuel root b
  unfold SymlinkFilter.list_files
  by_cases hs : is_symlink fs lf root = true
  · rw [if_pos hs]; simp
  · rw [if_neg hs]
    by_cases ht : try_exists fs lf root = true
    · rw [if_neg (not_not_intro ht)]
      apply symLoop_no_panic fs lf hrt fuel [root] []
      intro x hx
      obtain rfl : x = root := by simpa using hx
      exact Or.inr ht
    · rw [if_pos ht]; simp

/-- Counterexample for C4 as frozen: under the Basic policy the failing
directory entry inside the non-root directory `r/d` of `fsBadEntry` makes
the whole scan panic instead of being omitted. -/
theorem C4_listing_failures_cex :
    BasicFilter.list_files fsBadEntry 8 20 ⟨["r"], none⟩ = some Panics.panicked := by
  decide

/-- Witness for C4 at a concrete tree: `fsBadEntry` is a readable tree,
and its preserving scan does not panic. -/
theorem C4_listing_failures_witness :
    SymlinkFilter.list_files fsBadEntry 8 20 ⟨["r"], none⟩ ≠ some Panics.panicked :=
  (C4_listing_failures fsBadEntry (by decide)).1 8 20 ["r"] none

/-! ### Claim theorems: termination (C9) -/

/-- The `follow_link` while-loop never finishes on the self-referential
symlink `r/c` of `fsCycleF`, for any hop budget. -/
theorem followChain_cycle : ∀ j, followChain fsCycleF 8 j ["r", "c"] = none := by
  intro j
  induction j with
  | zero => decide
  | succ jj ih =>
    unfold followChain
    rw [if_pos (by decide : is_symlink fsCycleF 8 ["r", "c"] = true)]
    rw [show read_link fsCycleF 8 ["r", "c"] = some ["r", "c"] from by decide]
    exact ih

theorem followLoop_cycle2 : ∀ fuel (q : List FsPath) (results : List FileInfo),
    followLoop fsCycleF 8 fuel (["r", "c"] :: q) results = none := by
  intro fuel q results
  cases fuel with
  | zero => rfl
  | succ f =>
    have hq : SymlinkFollowFilter.query_fileinfo fsCycleF 8 (f + 1) ["r", "c"] = none := by
      unfold SymlinkFollowFilter.query_fileinfo
      rw [if_pos (by decide : is_symlink fsCycleF 8 ["r", "c"] = true)]
      simp only [SymlinkFollowFilter.follow_link,
        show read_link fsCycleF 8 ["r", "c"] = some ["r", "c"] from by decide,
        followChain_cycle]
    simp only [followLoop, hq]

theorem followLoop_cycle1 : ∀ fuel (results : List FileInfo),
    followLoop fsCycleF 8 fuel [["r"]] results = none := by
  intro fuel results
  cases fuel with
  | zero => rfl
  | succ f =>
    have hq : SymlinkFollowFilter.query_fileinfo fsCycleF 8 (f + 1) ["r"] =
        some (Panics.ok (FileInfo.new ["r"] ["r"] FileType.DIRECTORY none)) := by
      unfold SymlinkFollowFilter.query_fileinfo
      rw [if_neg (by decide : ¬ is_symlink fsCycleF 8 ["r"] = true)]
      rw [if_pos (by decide : is_dir fsCycleF 8 ["r"] = true)]
    have hb : SymlinkFollowFilter.query_next_batch fsCycleF 8 (f + 1) ["r"] =
        some (Panics.ok [["r", "c"]]) := by
      unfold SymlinkFollowFilter.query_next_batch
      simp only [hq, FileInfo.new]
      rw [if_neg (by decide : ¬ is_file fsCycleF 8 ["r"] = true)]
      rw [show read_dir fsCycleF 8 ["r"] = some [some ["r", "c"]] from by decide]
      decide
    simp only [followLoop, hq, hb]
    exact followLoop_cycle2 f [] _

/-- C9 (amended): not every scan terminates.  Under the follow policy a
symlink chain that revisits itself (`r/c -> r/c`) makes `follow_link` spin
forever, so the scan completes under no fuel bound; the preserving policy
handles the same tree, classifying the cyclic symlink as a Broken leaf
(the OS existence check fails with ELOOP). -/
theorem C9_follow_cycle_diverges :
    (∀ fuel, SymlinkFollowFilter.list_files fsCycleF 8 fuel ⟨["r"], none⟩ = none) ∧
    SymlinkFilter.list_files fsCycleF 8 20 ⟨["r"], none⟩ =
      some (Panics.ok (some
        [FileInfo.new ["r"] ["r"] FileType.DIRECTORY none,
         FileInfo.new ["r", "c"] ["r", "c"] FileType.NONE (some ["r", "c"])])) := by
  constructor
  · intro fuel
    unfold SymlinkFollowFilter.list_files
    rw [if_neg (not_not_intro (by decide : try_exists fsCycleF 8 ["r"] = true))]
    exact followLoop_cycle1 fuel []
  · decide

/-- Counterexample for C9 as frozen: the follow scan of `fsCycleF` never
runs to completion, for any fuel bound — the scan runs forever. -/
theorem C9_follow_cycle_diverges_cex : ¬ FollowTerminates fsCycleF 8 ⟨["r"], none⟩ := by
  rintro ⟨fuel, hf⟩
  have hnone : SymlinkFollowFilter.list_files fsCycleF 8 fuel ⟨["r"], none⟩ = none := by
    unfold SymlinkFollowFilter.list_files
    rw [if_neg (not_not_intro (by decide : try_exists fsCycleF 8 ["r"] = true))]
    exact followLoop_cycle1 fuel []
  rw [hnone] at hf
  simp at hf

end Clannad
